import Mathlib

/-!
Shallow embedding of the `hledger-tools` library (files
`src/hledgertools/hlcommand.py` and `src/hledgertools/hldataframe.py`)
and proofs of the specification's claims about it.

The command builder is embedded directly; the external process is a
parameter (a function from the argument list to exit code, stdout and
stderr), mirroring `subprocess.run` with captured pipes and `check=True`.
The dataframe layer is embedded over an explicit columnar table model;
the polars primitives the code delegates to (`filter`, `with_columns`,
`rename`, `drop`, `transpose`, column-header assignment, `read_csv`)
are modelled by explicit Lean functions on that table model.
-/

/- ===================== hlcommand.py ===================== -/

/-- Captured result of one external-process invocation: exit status,
standard output and standard error, as `subprocess.run` with
`stdout=PIPE, stderr=PIPE, text=True` captures them. -/
structure ProcResult where
  returncode : Nat
  stdout : String
  stderr : String
deriving DecidableEq, Repr

/-- Error raised by `subprocess.run(..., check=True)` on a non-zero exit
status (`CalledProcessError`); carries the exit code and the captured
standard-error text. -/
structure CalledProcessError where
  returncode : Nat
  stderr : String
deriving DecidableEq, Repr

/-- Result of `HledgerCommand.run`: plain stdout text, or a `StringIO`
(seekable text stream) wrapping the same stdout text. -/
inductive RunOutput where
  | text : String → RunOutput
  | stream : String → RunOutput
deriving DecidableEq, Repr

/-- State of a `HledgerCommand` object after `__init__`
(`hlcommand.py`, lines 10-32): the fixed executable name plus the
optional global options. -/
structure HledgerCommand where
  command : String
  ledgerfile : Option String
  begin_date : Option String
  end_date : Option String
  period : Option String
  periodic : Option String
  output_format : Option String
  other_options : Option (List String)
deriving DecidableEq, Repr

/-- Python truthiness of an optional string field: `None` and the empty
string are falsy (`if self.ledgerfile:` in the source). -/
def truthyS : Option String → Bool
  | none => false
  | some s => !s.isEmpty

/-- Python truthiness of an optional list field: `None` and the empty
list are falsy (`if accounts:` in the source). -/
def truthyL : Option (List String) → Bool
  | none => false
  | some l => !l.isEmpty

/-- `HledgerCommand.__init__`: stores the options; `self.command` is
always the literal `"hledger"`. -/
def HledgerCommand.init (ledgerfile begin_date end_date period periodic
    output_format : Option String) (other_options : Option (List String)) :
    HledgerCommand :=
  { command := "hledger", ledgerfile, begin_date, end_date, period,
    periodic, output_format, other_options }

/-- Argument-list assembly of `HledgerCommand.run` (`hlcommand.py`,
lines 55-95), translated append by append: base command, file, period,
begin, end, periodic flag, output format, global extras, per-call
extras, accounts, `not:`-prefixed ignores. -/
def HledgerCommand.run_args (c : HledgerCommand) (subcommand : String)
    (accounts ignore extra_options : Option (List String)) : List String :=
  let full_command := ["hledger", subcommand]
  let full_command := if truthyS c.ledgerfile then
    full_command ++ ["--file=" ++ c.ledgerfile.getD ""] else full_command
  let full_command := if truthyS c.period then
    full_command ++ ["--period=" ++ c.period.getD ""] else full_command
  let full_command := if truthyS c.begin_date then
    full_command ++ ["--begin=" ++ c.begin_date.getD ""] else full_command
  let full_command := if truthyS c.end_date then
    full_command ++ ["--end=" ++ c.end_date.getD ""] else full_command
  let full_command := if truthyS c.periodic then
    full_command ++ ["--" ++ c.periodic.getD ""] else full_command
  let full_command := if truthyS c.output_format then
    full_command ++ ["--output-format=" ++ c.output_format.getD ""] else full_command
  let full_command := if truthyL c.other_options then
    full_command ++ c.other_options.getD [] else full_command
  let full_command := if truthyL extra_options then
    full_command ++ extra_options.getD [] else full_command
  let full_command := if truthyL accounts then
    full_command ++ accounts.getD [] else full_command
  let full_command := if truthyL ignore then
    full_command ++ (ignore.getD []).map (fun acct => "not:" ++ acct)
    else full_command
  full_command

/-- `HledgerCommand.run` (`hlcommand.py`, lines 34-109): build the
argument list, invoke the external process (`exec`, standing for
`subprocess.run` with `check=True`), fail with `CalledProcessError` on a
non-zero exit status, otherwise return stdout — wrapped in a `StringIO`
when an output format is configured. -/
def HledgerCommand.run (c : HledgerCommand) (subcommand : String)
    (accounts ignore extra_options : Option (List String))
    (exec : List String → ProcResult) :
    Except CalledProcessError RunOutput :=
  let result := exec (c.run_args subcommand accounts ignore extra_options)
  if result.returncode ≠ 0 then
    .error ⟨result.returncode, result.stderr⟩
  else if truthyS c.output_format then
    .ok (.stream result.stdout)
  else
    .ok (.text result.stdout)

/-- Spec-side description of one optional `--flag=value` argument:
emitted exactly when the option is configured (truthy). -/
def optArg (pre : String) (o : Option String) : List String :=
  if truthyS o then [pre ++ o.getD ""] else []

/-- Spec-side description of the bare `--<periodic>` flag. -/
def optBare (o : Option String) : List String :=
  if truthyS o then ["--" ++ o.getD ""] else []

/-- Spec-side description of an optional list section: its elements in
list order (nothing when absent). -/
def optList (o : Option (List String)) : List String := o.getD []

theorem append_ite (l x : List String) (c : Bool) :
    (if c = true then l ++ x else l) = l ++ (if c = true then x else []) := by
  cases c <;> simp

theorem ite_truthyL_getD (o : Option (List String)) :
    (if truthyL o = true then o.getD [] else []) = o.getD [] := by
  cases o with
  | none => simp [truthyL]
  | some l => cases l <;> simp [truthyL]

theorem ite_truthyL_map (o : Option (List String)) (f : String → String) :
    (if truthyL o = true then (o.getD []).map f else []) = (o.getD []).map f := by
  cases o with
  | none => simp [truthyL]
  | some l => cases l <;> simp [truthyL]

/-- C1: for every combination of constructor options and run-call
parameters, `run` builds the argument list in exactly the fixed order
executable, subcommand, `--file`, `--period`, `--begin`, `--end`, bare
`--<periodic>`, `--output-format` (each only when configured), global
extras, per-call extras, accounts verbatim, then `not:`-prefixed
ignores; and the concrete call `run("balance", accounts=["assets"],
ignore=["equity"])` with file `ledger.journal` produces
`["hledger","balance","--file=ledger.journal","assets","not:equity"]`. -/
theorem run_args_fixed_order :
    (∀ (c : HledgerCommand) (subcommand : String)
        (accounts ignore extra_options : Option (List String)),
      c.run_args subcommand accounts ignore extra_options =
        ["hledger", subcommand] ++
        optArg "--file=" c.ledgerfile ++
        optArg "--period=" c.period ++
        optArg "--begin=" c.begin_date ++
        optArg "--end=" c.end_date ++
        optBare c.periodic ++
        optArg "--output-format=" c.output_format ++
        optList c.other_options ++
        optList extra_options ++
        optList accounts ++
        (optList ignore).map (fun acct => "not:" ++ acct)) ∧
    (HledgerCommand.init (some "ledger.journal") none none none none none
        none).run_args "balance" (some ["assets"]) (some ["equity"]) none =
      ["hledger", "balance", "--file=ledger.journal", "assets", "not:equity"] := by
  constructor
  · intro c subcommand accounts ignore extra_options
    simp only [HledgerCommand.run_args, append_ite, ite_truthyL_getD,
      ite_truthyL_map]
    simp only [optArg, optBare, optList, List.append_assoc]
  · rfl

/-- C4: when the external process exits non-zero, `run` fails with an
error carrying the exit code and the captured stderr text (no partial
result); when it exits zero, `run` returns the captured stdout text,
wrapped in a seekable text stream over that same text if and only if an
output format was configured. -/
theorem run_exec_spec (c : HledgerCommand) (subcommand : String)
    (accounts ignore extra_options : Option (List String))
    (exec : List String → ProcResult) (r : ProcResult)
    (hr : exec (c.run_args subcommand accounts ignore extra_options) = r) :
    (r.returncode ≠ 0 →
      c.run subcommand accounts ignore extra_options exec =
        .error ⟨r.returncode, r.stderr⟩) ∧
    (r.returncode = 0 →
      c.run subcommand accounts ignore extra_options exec =
        .ok (if truthyS c.output_format then RunOutput.stream r.stdout
             else RunOutput.text r.stdout) ∧
      ((∃ s, c.run subcommand accounts ignore extra_options exec =
          .ok (RunOutput.stream s)) ↔ truthyS c.output_format = true)) := by
  unfold HledgerCommand.run
  rw [hr]
  refine ⟨fun hne => by simp [hne], fun hz => ?_⟩
  constructor
  · simp [hz, apply_ite Except.ok]
  · cases hfmt : truthyS c.output_format <;> simp [hz, hfmt]

/-- Witness for C4 at a concrete command and process: configured output
format `csv`, exit code 0, stdout `"a,b"`. -/
theorem run_exec_spec_witness :
    ((0 : Nat) ≠ 0 →
      (HledgerCommand.init none none none none none (some "csv") none).run
          "balance" none none none (fun _ => ⟨0, "a,b", ""⟩) =
        .error ⟨0, ""⟩) ∧
    ((0 : Nat) = 0 →
      (HledgerCommand.init none none none none none (some "csv") none).run
          "balance" none none none (fun _ => ⟨0, "a,b", ""⟩) =
        .ok (if truthyS (HledgerCommand.init none none none none none
              (some "csv") none).output_format then RunOutput.stream "a,b"
             else RunOutput.text "a,b") ∧
      ((∃ s, (HledgerCommand.init none none none none none (some "csv")
            none).run "balance" none none none (fun _ => ⟨0, "a,b", ""⟩) =
          .ok (RunOutput.stream s)) ↔
        truthyS (HledgerCommand.init none none none none none (some "csv")
            none).output_format = true)) :=
  run_exec_spec (HledgerCommand.init none none none none none (some "csv")
    none) "balance" none none none (fun _ => ⟨0, "a,b", ""⟩) ⟨0, "a,b", ""⟩ rfl

/- ===================== hldataframe.py : table model ===================== -/

/-- Value stored in a table cell: a polars string, a `Float64` (modelled
exactly over `ℚ`; every numeric value the claims touch has a short exact
binary expansion), or a parsed datetime (year, month, day). -/
inductive PValue where
  | str : String → PValue
  | float : ℚ → PValue
  | datetime : Nat → Nat → Nat → PValue
deriving DecidableEq, Repr

/-- Errors raised by the polars operations the code delegates to:
`ColumnNotFoundError`, `DuplicateError` (column names are unique in
polars), strict parse/cast failures, and shape mismatches. -/
inductive PError where
  | columnNotFound : String → PError
  | duplicateColumn : String → PError
  | parseFailure : String → PError
  | shapeMismatch : PError
deriving DecidableEq, Repr

/-- Columnar table: ordered named columns and ordered rows; in a
well-formed table every row has one entry per column. -/
structure DataFrame where
  columns : List String
  rows : List (List PValue)
deriving DecidableEq, Repr

/-- A table is well-formed when it is rectangular. -/
def DataFrame.wf (df : DataFrame) : Prop :=
  ∀ r ∈ df.rows, r.length = df.columns.length

/-- Does `needle` occur at the start of `hay`? -/
def listStartsWith : List Char → List Char → Bool
  | [], _ => true
  | _ :: _, [] => false
  | a :: as, b :: bs => a == b && listStartsWith as bs

/-- Does `needle` occur anywhere in `hay` as a contiguous run? -/
def listHasSub (needle : List Char) : List Char → Bool
  | [] => listStartsWith needle []
  | c :: rest => listStartsWith needle (c :: rest) || listHasSub needle rest

/-- Split a character list on a separator character (kernel-computable
counterpart of python `str.split`). -/
def splitOnChar (sep : Char) : List Char → List (List Char)
  | [] => [[]]
  | c :: rest =>
    let r := splitOnChar sep rest
    if c == sep then [] :: r
    else
      match r with
      | [] => [[c]]
      | g :: gs => (c :: g) :: gs

/-- Model of polars `Expr.str.contains(pattern)` for the patterns this
code builds (`"|"`-joined literal account names): the value matches when
any `|`-separated alternative occurs in it as a substring; the empty
pattern matches every value (the empty regex matches everywhere). -/
def strContainsPat (s pattern : String) : Bool :=
  (splitOnChar '|' pattern.data).any (fun p => listHasSub p s.data)

/-- Model of polars `Expr.str.replace(pat, "")` for a literal pattern:
removes only the FIRST occurrence of `pat` (`str.replace` replaces one
match; `str.replace_all` would remove all of them). -/
def removeFirstOcc (pat : List Char) : List Char → List Char
  | [] => []
  | c :: rest =>
    if pat ≠ [] ∧ listStartsWith pat (c :: rest) then (c :: rest).drop pat.length
    else c :: removeFirstOcc pat rest

/-- Numeric value of a decimal digit character. -/
def digitVal (c : Char) : Option Nat :=
  if '0' ≤ c ∧ c ≤ '9' then some (c.toNat - '0'.toNat) else none

/-- Accumulating decimal reading; fails on any non-digit. -/
def digitsToNatAux : List Char → Nat → Option Nat
  | [], acc => some acc
  | c :: cs, acc =>
    match digitVal c with
    | some d => digitsToNatAux cs (acc * 10 + d)
    | none => none

/-- Decimal reading of a non-empty digit run. -/
def digitsToNat (cs : List Char) : Option Nat :=
  if cs.isEmpty then none else digitsToNatAux cs 0

/-- Unsigned decimal-number reading: a non-empty run of digits and an
optional fractional part, returned as an exact numerator/denominator
pair (the denominator is the power of ten of the fraction length). -/
def parseFloatPos (cs : List Char) : Option (Nat × Nat) :=
  match digitsToNat (cs.takeWhile (fun c => (digitVal c).isSome)) with
  | none => none
  | some ip =>
    match cs.dropWhile (fun c => (digitVal c).isSome) with
    | [] => some (ip, 1)
    | '.' :: fracCs =>
      (match digitsToNat fracCs with
       | none => none
       | some fp => some (ip * 10 ^ fracCs.length + fp, 10 ^ fracCs.length))
    | _ => none

/-- Model of polars strict `cast(pl.Float64)` on a string value: an
optional minus sign, a non-empty run of digits, and an optional
fractional part; anything else fails the cast. The value is exact as a
rational (every value the claims touch has a short binary expansion, so
`ℚ` models `Float64` faithfully here). -/
def parseFloatQ (s : String) : Option ℚ :=
  match s.data with
  | '-' :: rest => (parseFloatPos rest).map (fun p => mkRat (-(p.1 : Int)) p.2)
  | cs => (parseFloatPos cs).map (fun p => mkRat (p.1 : Int) p.2)

/-- Model of polars strict `str.to_datetime(format)` on one value, for
formats made of `%Y` (4-digit year), `%m` (2-digit month), `%d`
(2-digit day) and literal characters; components missing from the
format keep the defaults. Fails when the value does not conform or
leaves trailing text (`exact=True`, the polars default). -/
def parseDTAux : List Char → List Char → Nat → Nat → Nat →
    Option (Nat × Nat × Nat)
  | [], [], y, m, d => some (y, m, d)
  | [], _ :: _, _, _, _ => none
  | '%' :: 'Y' :: fmt, s, _, m, d =>
    (match digitsToNat (s.take 4) with
     | some y => if (s.take 4).length = 4 then parseDTAux fmt (s.drop 4) y m d
                 else none
     | none => none)
  | '%' :: 'm' :: fmt, s, y, _, d =>
    (match digitsToNat (s.take 2) with
     | some m => if (s.take 2).length = 2 ∧ 1 ≤ m ∧ m ≤ 12 then
                   parseDTAux fmt (s.drop 2) y m d
                 else none
     | none => none)
  | '%' :: 'd' :: fmt, s, y, m, _ =>
    (match digitsToNat (s.take 2) with
     | some d => if (s.take 2).length = 2 ∧ 1 ≤ d ∧ d ≤ 31 then
                   parseDTAux fmt (s.drop 2) y m d
                 else none
     | none => none)
  | c :: fmt, s, y, m, d =>
    (match s with
     | s0 :: srest => if s0 == c then parseDTAux fmt srest y m d else none
     | [] => none)

/-- Strict datetime parse of a whole value against a format. -/
def parseDT (format s : String) : Option (Nat × Nat × Nat) :=
  parseDTAux format.data s.data 1 1 1

/- ======== polars primitives the code delegates to ======== -/

/-- Model of `df[name].to_list()`: the named column's values in row
order; `ColumnNotFoundError` when the name is absent. -/
def DataFrame.getColumn (df : DataFrame) (name : String) :
    Except PError (List PValue) :=
  match df.columns.findIdx? (· == name) with
  | none => .error (.columnNotFound name)
  | some j => .ok (df.rows.map (fun r => r.getD j (.str "")))

/-- Model of polars `DataFrame.rename({old: new})`: raises
`ColumnNotFoundError` when `old` is absent, and `DuplicateError` when
`new` already names another existing column (polars keeps column names
unique). -/
def DataFrame.renameCol (df : DataFrame) (oldName newName : String) :
    Except PError DataFrame :=
  if ¬ df.columns.contains oldName then .error (.columnNotFound oldName)
  else if oldName ≠ newName ∧ df.columns.contains newName then
    .error (.duplicateColumn newName)
  else
    .ok { df with
          columns := df.columns.map (fun c => if c = oldName then newName else c) }

/-- Model of polars `DataFrame.drop(name)`: remove the named column.
The source only drops a column it has just read, so the absent case
(which polars rejects) is never reached and returns the frame
unchanged. -/
def DataFrame.dropCol (df : DataFrame) (name : String) : DataFrame :=
  match df.columns.findIdx? (· == name) with
  | none => df
  | some j =>
    { columns := df.columns.eraseIdx j,
      rows := df.rows.map (fun r => r.eraseIdx j) }

/-- Model of polars `DataFrame.transpose(include_header=...)`: rows and
columns swap. With a header, the first output column (named `column`)
holds the original column names and the remaining output columns are
named `column_0`, `column_1`, …; without a header only the `column_i`
columns appear. -/
def DataFrame.transposePl (df : DataFrame) (include_header : Bool) : DataFrame :=
  let n := df.rows.length
  if include_header then
    { columns := "column" :: (List.range n).map (fun i => "column_" ++ toString i),
      rows := df.columns.mapIdx (fun j c =>
        PValue.str c :: df.rows.map (fun r => r.getD j (.str ""))) }
  else
    { columns := (List.range n).map (fun i => "column_" ++ toString i),
      rows := df.columns.mapIdx (fun j _ =>
        df.rows.map (fun r => r.getD j (.str ""))) }

/-- Model of assigning `df.columns = names`: polars requires the length
to match the current width. Duplicate names are not rejected here,
matching the observed behaviour the spec records for duplicate
identifier values (they silently collide into duplicate headers). -/
def DataFrame.setColumns (df : DataFrame) (names : List String) :
    Except PError DataFrame :=
  if names.length = df.columns.length then .ok { df with columns := names }
  else .error .shapeMismatch

/-- Numeric schema inference (simplified model of polars inference; it
is exercised only when `infer_schema=true`, which no claim uses): a
column whose string cells all parse as numbers becomes `Float64`. -/
def inferSchemaDF (df : DataFrame) : DataFrame :=
  let numericCol : Nat → Bool := fun j =>
    df.rows.all (fun r =>
      match r.getD j (.str "") with
      | .str s => (parseFloatQ s).isSome
      | _ => true)
  { df with
    rows := df.rows.map (fun r => r.mapIdx (fun j v =>
      if numericCol j then
        match v with
        | .str s =>
          (match parseFloatQ s with
           | some q => .float q
           | none => .str s)
        | v => v
      else v)) }

/-- Raw record structure of CSV text: non-blank newline-separated
records, each split on commas (blank records, such as the one after a
trailing newline, are skipped). -/
def csvRawRecords (t : String) : List (List String)  :=
  (((splitOnChar '\n' t.data).map String.mk).filter (fun l => !l.isEmpty)).map
    (fun l => (splitOnChar ',' l.data).map String.mk)

/-- Table assembly from raw CSV records: the first record is the header
row; every body record must have the header's width; every cell is kept
as the raw field string. -/
def csvTable : List (List String) → Except PError DataFrame
  | [] => .error .shapeMismatch
  | cols :: rawRows =>
    if rawRows.all (fun r => r.length == cols.length) then
      .ok { columns := cols, rows := rawRows.map (fun r => r.map PValue.str) }
    else .error .shapeMismatch

/-- Model of `pl.read_csv` on CSV text: newline-separated records,
comma-separated fields, first record the header row. With
`infer_schema=false` every cell stays the raw field text as a string;
with `infer_schema=true` numeric inference runs over the columns. -/
def read_csv (csv_text : String) (infer_schema : Bool) :
    Except PError DataFrame :=
  (csvTable (csvRawRecords csv_text)).map
    (fun df => if infer_schema then inferSchemaDF df else df)

/- ======== HLDataFrame operations ======== -/

/-- `HLDataFrame.from_csv` (`hldataframe.py`, lines 36-57): delegate to
`pl.read_csv` with the given `infer_schema` flag (the python default is
`False`, keeping every column as strings). -/
def HLDataFrame.from_csv (csv_text : String) (infer_schema : Bool) :
    Except PError DataFrame :=
  read_csv csv_text infer_schema

/-- Evaluation of `pl.col(account_col).str.contains(pattern)` on one
cell; defined on strings (a non-string column makes polars raise). -/
def evalContains (pattern : String) : PValue → Except PError Bool
  | .str s => .ok (strContainsPat s pattern)
  | _ => .error (.parseFailure "str.contains on non-string column")

/-- The match condition evaluated over a whole column (position `j` in
each row), in row order. -/
def evalBools (pattern : String) (j : Nat) :
    List (List PValue) → Except PError (List Bool)
  | [] => .ok []
  | r :: rs =>
    match evalContains pattern (r.getD j (.str "")) with
    | .error e => .error e
    | .ok b =>
      match evalBools pattern j rs with
      | .error e => .error e
      | .ok bs => .ok (b :: bs)

/-- `HLDataFrame.filter_accounts` (`hldataframe.py`, lines 63-101):
join the patterns with `|` into one alternation, build the containment
condition on the account column, negate it when `exclude` is set, and
keep the rows where the condition holds. A single string argument is
the singleton-list case (`"|".join([s]) = s`). -/
def HLDataFrame.filter_accounts (df : DataFrame) (patterns : List String)
    (account_col : String) (exclude : Bool) : Except PError DataFrame :=
  match df.columns.findIdx? (· == account_col) with
  | none => .error (.columnNotFound account_col)
  | some j =>
    match evalBools (String.intercalate "|" patterns) j df.rows with
    | .error e => .error e
    | .ok bs =>
      .ok { df with
            rows := ((df.rows.zip
              (if exclude then bs.map (fun b => !b) else bs)).filter
                (fun p => p.2)).map Prod.fst }

/-- `str.to_datetime(date_format)` on one cell (strict, the polars
default): parses a string cell, fails otherwise. -/
def dtCell (date_format : String) : PValue → Except PError PValue
  | .str s =>
    (match parseDT date_format s with
     | some (y, m, d) => .ok (.datetime y m d)
     | none => .error (.parseFailure s))
  | _ => .error (.parseFailure "to_datetime on non-string column")

/-- The datetime conversion applied down a whole column (position `j`),
rebuilding each row with the converted cell in place. -/
def dtRows (date_format : String) (j : Nat) :
    List (List PValue) → Except PError (List (List PValue))
  | [] => .ok []
  | r :: rs =>
    match dtCell date_format (r.getD j (.str "")) with
    | .error e => .error e
    | .ok v =>
      match dtRows date_format j rs with
      | .error e => .error e
      | .ok rest => .ok (r.set j v :: rest)

/-- `HLDataFrame.col_to_datetime` (`hldataframe.py`, lines 107-129):
`with_columns(pl.col(datecol_name).str.to_datetime(date_format))`. -/
def HLDataFrame.col_to_datetime (df : DataFrame)
    (datecol_name date_format : String) : Except PError DataFrame :=
  match df.columns.findIdx? (· == datecol_name) with
  | none => .error (.columnNotFound datecol_name)
  | some j =>
    match dtRows date_format j df.rows with
    | .error e => .error e
    | .ok rows => .ok { df with rows := rows }

/-- Captured identifier-column values used as new column headers:
assigning non-string values as column names is a type error in python,
so only string cells are accepted. -/
def valuesToNames : List PValue → Except PError (List String)
  | [] => .ok []
  | .str s :: vs => (valuesToNames vs).map (fun ns => s :: ns)
  | _ => .error (.parseFailure "column names must be strings")

/-- `HLDataFrame.transpose` (`hldataframe.py`, lines 131-212): with
`auto_name=False` the plain polars transpose; otherwise detect the
identifier column (`id_col` if given, else `account`/`Account`, else
`date`, else fall back to the plain transpose), normalize `Account` to
`account`, capture the identifier values, drop the identifier column,
transpose the rest, and set the headers to the opposite semantic name
followed by the captured values. -/
def HLDataFrame.transpose (df : DataFrame) (id_col : Option String)
    (include_header auto_name : Bool) : Except PError DataFrame :=
  if !auto_name then .ok (df.transposePl include_header)
  else
    match (match id_col with
           | some c => some c
           | none =>
             if df.columns.contains "account" || df.columns.contains "Account"
             then some "account"
             else if df.columns.contains "date" then some "date"
             else none : Option String) with
    | none => .ok (df.transposePl include_header)
    | some idc =>
      match (if df.columns.contains "Account" then
          df.renameCol "Account" "account" else .ok df) with
      | .error e => .error e
      | .ok df1 =>
        match df1.getColumn idc with
        | .error e => .error e
        | .ok id_values =>
          match valuesToNames id_values with
          | .error e => .error e
          | .ok names =>
            ((df1.dropCol idc).transposePl include_header).setColumns
              ((if idc = "account" then "date" else "account") :: names)

/-- The conversion `currency_to_number` applies to one targeted cell:
`pl.col(col).str.replace(currency_symbol, "").cast(pl.Float64)` —
remove the first occurrence of the symbol, then strict-cast. Defined on
strings (`str.replace` raises on a non-string column). -/
def currencyCell (currency_symbol : String) : PValue → Except PError PValue
  | .str s =>
    (match parseFloatQ (String.mk (removeFirstOcc currency_symbol.data s.data)) with
     | some q => .ok (.float q)
     | none =>
       .error (.parseFailure (String.mk (removeFirstOcc currency_symbol.data s.data))))
  | _ => .error (.parseFailure "str.replace on non-string column")

/-- The currency conversion applied across one row: `target` marks (by
position) the columns in `change_cols` and not in `preserve_cols`. -/
def convCells (currency_symbol : String) :
    List Bool → List PValue → Except PError (List PValue)
  | _, [] => .ok []
  | [], v :: vs => .ok (v :: vs)
  | t :: ts, v :: vs =>
    match (if t then currencyCell currency_symbol v else .ok v) with
    | .error e => .error e
    | .ok v' =>
      match convCells currency_symbol ts vs with
      | .error e => .error e
      | .ok vs' => .ok (v' :: vs')

/-- The currency conversion applied row by row. -/
def convRows (currency_symbol : String) (target : List Bool) :
    List (List PValue) → Except PError (List (List PValue))
  | [] => .ok []
  | r :: rs =>
    match convCells currency_symbol target r with
    | .error e => .error e
    | .ok r' =>
      match convRows currency_symbol target rs with
      | .error e => .error e
      | .ok rest => .ok (r' :: rest)

/-- Positions of the columns `currency_to_number` converts: the python
comprehension `for col in change_cols if col not in preserve_cols`,
read off per column of the frame (sets are used only through
membership). -/
def targetMask (df : DataFrame) (preserve_cols change_cols : Option (List String)) :
    List Bool :=
  df.columns.map (fun c =>
    (change_cols.getD df.columns).contains c &&
      !((preserve_cols.getD []).contains c))

/-- `HLDataFrame.currency_to_number` (`hldataframe.py`, lines 214-258):
for every column in `change_cols` (default: all columns) that is not in
`preserve_cols` (default: empty), strip the currency symbol and cast to
`Float64`; `with_columns` replaces the targeted columns in place. An
expression naming an absent column raises `ColumnNotFoundError`. -/
def HLDataFrame.currency_to_number (df : DataFrame) (currency_symbol : String)
    (preserve_cols change_cols : Option (List String)) :
    Except PError DataFrame :=
  if (change_cols.getD df.columns).all (fun c =>
      (preserve_cols.getD []).contains c || df.columns.contains c) then
    match convRows currency_symbol (targetMask df preserve_cols change_cols)
        df.rows with
    | .error e => .error e
    | .ok rows => .ok { df with rows := rows }
  else
    .error (.columnNotFound "change_cols names an absent column")

/- ===================== claims about the table layer ===================== -/

/-- Pure value of the filter condition on one cell (strings only;
anything else makes the condition raise). -/
def cellMatch (pattern : String) : PValue → Bool
  | .str s => strContainsPat s pattern
  | _ => false

/-- Pure per-row value of the filter condition: the joined pattern
matched against the account cell (position `j`) of one row. -/
def rowMatch (pattern : String) (j : Nat) (r : List PValue) : Bool :=
  cellMatch pattern (r.getD j (.str ""))

theorem evalContains_ok (pattern : String) (v : PValue) (b : Bool)
    (h : evalContains pattern v = .ok b) :
    b = cellMatch pattern v := by
  cases v with
  | str s =>
    simp only [evalContains, Except.ok.injEq] at h
    simp [cellMatch, h.symm]
  | float q => simp [evalContains] at h
  | datetime y m d => simp [evalContains] at h

theorem evalBools_ok (pattern : String) (j : Nat) :
    ∀ rs bs, evalBools pattern j rs = .ok bs →
      bs = rs.map (rowMatch pattern j) := by
  intro rs
  induction rs with
  | nil =>
    intro bs h
    simp only [evalBools, Except.ok.injEq] at h
    simp [h.symm]
  | cons r rs ih =>
    intro bs h
    unfold evalBools at h
    revert h
    cases hc : evalContains pattern (r.getD j (.str "")) with
    | error e => intro h; cases h
    | ok b =>
      cases hb : evalBools pattern j rs with
      | error e => intro h; cases h
      | ok bs' =>
        intro h
        injection h with h
        subst h
        have h1 : b = rowMatch pattern j r := evalContains_ok pattern _ b hc
        simp [h1, ih bs' hb, rowMatch]

theorem zip_map_filter {α : Type} (g : α → Bool) (rs : List α) :
    (((rs.zip (rs.map g)).filter (fun p => p.2)).map Prod.fst) = rs.filter g := by
  induction rs with
  | nil => rfl
  | cons r rs ih =>
    simp only [List.map_cons, List.zip_cons_cons, List.filter_cons]
    cases hg : g r <;> simp [hg, ih]

theorem filter_accounts_ok (df : DataFrame) (patterns : List String)
    (account_col : String) (exclude : Bool) (j : Nat) (dfR : DataFrame)
    (hj : df.columns.findIdx? (· == account_col) = some j)
    (h : HLDataFrame.filter_accounts df patterns account_col exclude = .ok dfR) :
    dfR.columns = df.columns ∧
    dfR.rows = df.rows.filter (fun r =>
      if exclude then !(rowMatch (String.intercalate "|" patterns) j r)
      else rowMatch (String.intercalate "|" patterns) j r) := by
  unfold HLDataFrame.filter_accounts at h
  rw [hj] at h
  dsimp only at h
  revert h
  cases hb : evalBools (String.intercalate "|" patterns) j df.rows with
  | error e => intro h; cases h
  | ok bs =>
    intro h
    injection h with h
    subst h
    have hbs := evalBools_ok _ _ _ _ hb
    subst hbs
    refine ⟨rfl, ?_⟩
    cases exclude with
    | false => simpa using zip_map_filter (rowMatch (String.intercalate "|" patterns) j) df.rows
    | true =>
      simp only [if_pos, List.map_map]
      have := zip_map_filter
        (fun r => !(rowMatch (String.intercalate "|" patterns) j r)) df.rows
      simpa using this

/-- C6: for every table with the named account column (string-valued),
the rows kept by `filter_accounts(patterns)` and the rows kept by
`filter_accounts(patterns, exclude=true)` are disjoint and together are
exactly the rows of the original table. -/
theorem filter_accounts_partition (df : DataFrame) (patterns : List String)
    (account_col : String) (dfI dfE : DataFrame)
    (hI : HLDataFrame.filter_accounts df patterns account_col false = .ok dfI)
    (hE : HLDataFrame.filter_accounts df patterns account_col true = .ok dfE) :
    (∀ r, r ∈ df.rows ↔ (r ∈ dfI.rows ∨ r ∈ dfE.rows)) ∧
    (∀ r, ¬ (r ∈ dfI.rows ∧ r ∈ dfE.rows)) := by
  cases hj : df.columns.findIdx? (· == account_col) with
  | none =>
    exfalso
    unfold HLDataFrame.filter_accounts at hI
    rw [hj] at hI
    dsimp only at hI
    cases hI
  | some j =>
    obtain ⟨-, hIr⟩ := filter_accounts_ok df patterns account_col false j dfI hj hI
    obtain ⟨-, hEr⟩ := filter_accounts_ok df patterns account_col true j dfE hj hE
    constructor
    · intro r
      constructor
      · intro hr
        cases hg : rowMatch (String.intercalate "|" patterns) j r with
        | true => exact Or.inl (by rw [hIr]; simp [List.mem_filter, hr, hg])
        | false => exact Or.inr (by rw [hEr]; simp [List.mem_filter, hr, hg])
      · intro hr
        cases hr with
        | inl hr => rw [hIr] at hr; exact (List.mem_filter.mp hr).1
        | inr hr => rw [hEr] at hr; exact (List.mem_filter.mp hr).1
    · intro r ⟨hrI, hrE⟩
      rw [hIr] at hrI
      rw [hEr] at hrE
      have h1 := (List.mem_filter.mp hrI).2
      have h2 := (List.mem_filter.mp hrE).2
      simp at h1 h2
      rw [h1] at h2
      cases h2

/-- Witness for C6: a two-row account table split by the pattern
`assets`. -/
theorem filter_accounts_partition_witness :
    (∀ r, r ∈ (DataFrame.mk ["account"]
        [[PValue.str "assets:bank"], [PValue.str "expenses:food"]]).rows ↔
      (r ∈ (DataFrame.mk ["account"] [[PValue.str "assets:bank"]]).rows ∨
       r ∈ (DataFrame.mk ["account"] [[PValue.str "expenses:food"]]).rows)) ∧
    (∀ r, ¬ (r ∈ (DataFrame.mk ["account"] [[PValue.str "assets:bank"]]).rows ∧
             r ∈ (DataFrame.mk ["account"] [[PValue.str "expenses:food"]]).rows)) :=
  filter_accounts_partition
    (DataFrame.mk ["account"] [[PValue.str "assets:bank"], [PValue.str "expenses:food"]])
    ["assets"] "account"
    (DataFrame.mk ["account"] [[PValue.str "assets:bank"]])
    (DataFrame.mk ["account"] [[PValue.str "expenses:food"]])
    rfl rfl

theorem listStartsWith_nil (hay : List Char) : listStartsWith [] hay = true := by
  cases hay <;> rfl

theorem listHasSub_nil (hay : List Char) : listHasSub [] hay = true := by
  cases hay with
  | nil => rfl
  | cons c rest => simp [listHasSub, listStartsWith_nil]

theorem strContainsPat_empty (s : String) : strContainsPat s "" = true := by
  have hd : ("" : String).data = [] := rfl
  simp [strContainsPat, hd, splitOnChar, listHasSub_nil]

theorem filter_all_true {α : Type} (p : α → Bool) (l : List α)
    (h : ∀ a ∈ l, p a = true) : l.filter p = l := by
  induction l with
  | nil => rfl
  | cons a l ih =>
    simp [List.filter_cons, h a (by simp),
      ih (fun b hb => h b (by simp [hb]))]

theorem filter_all_false {α : Type} (p : α → Bool) (l : List α)
    (h : ∀ a ∈ l, p a = false) : l.filter p = [] := by
  induction l with
  | nil => rfl
  | cons a l ih =>
    simp [List.filter_cons, h a (by simp),
      ih (fun b hb => h b (by simp [hb]))]

theorem evalBools_of_strings (pattern : String) (j : Nat) :
    ∀ rs : List (List PValue),
      (∀ r ∈ rs, ∃ s, r.getD j (.str "") = PValue.str s) →
      evalBools pattern j rs = .ok (rs.map (rowMatch pattern j)) := by
  intro rs
  induction rs with
  | nil => intro _; rfl
  | cons r rs ih =>
    intro hs
    obtain ⟨s, hcell⟩ := hs r (by simp)
    have hrest := ih (fun r' hr' => hs r' (by simp [hr']))
    have hm : rowMatch pattern j r = strContainsPat s pattern := by
      unfold rowMatch
      rw [hcell]
      rfl
    unfold evalBools
    rw [hcell, hrest]
    simp [evalContains, hm]

/-- C10: with an empty pattern list the joined pattern is the empty
string, which matches every row of a string-valued account column:
`exclude=false` returns the table unchanged, and `exclude=true` returns
the table with no rows. -/
theorem filter_accounts_empty_patterns (df : DataFrame) (account_col : String)
    (j : Nat) (hj : df.columns.findIdx? (· == account_col) = some j)
    (hs : ∀ r ∈ df.rows, ∃ s, r.getD j (.str "") = PValue.str s) :
    HLDataFrame.filter_accounts df [] account_col false = .ok df ∧
    HLDataFrame.filter_accounts df [] account_col true =
      .ok { df with rows := ([] : List (List PValue)) } := by
  have hall : ∀ r ∈ df.rows,
      rowMatch (String.intercalate "|" ([] : List String)) j r = true := by
    intro r hr
    obtain ⟨s, hcell⟩ := hs r hr
    have hm : rowMatch (String.intercalate "|" ([] : List String)) j r =
        strContainsPat s (String.intercalate "|" ([] : List String)) := by
      unfold rowMatch
      rw [hcell]
      rfl
    rw [hm]
    exact strContainsPat_empty s
  constructor
  · unfold HLDataFrame.filter_accounts
    rw [hj]
    dsimp only
    rw [evalBools_of_strings (String.intercalate "|" ([] : List String))
      j df.rows hs]
    dsimp only
    rw [if_neg (by simp), zip_map_filter, filter_all_true _ _ hall]
  · unfold HLDataFrame.filter_accounts
    rw [hj]
    dsimp only
    rw [evalBools_of_strings (String.intercalate "|" ([] : List String))
      j df.rows hs]
    dsimp only
    rw [if_pos rfl, List.map_map, zip_map_filter,
      filter_all_false _ _ (fun r hr => by simp [Function.comp, hall r hr])]

/-- Witness for C10: a one-row account table, empty pattern list. -/
theorem filter_accounts_empty_patterns_witness :
    HLDataFrame.filter_accounts
        (DataFrame.mk ["account"] [[PValue.str "assets:bank"]]) []
        "account" false =
      .ok (DataFrame.mk ["account"] [[PValue.str "assets:bank"]]) ∧
    HLDataFrame.filter_accounts
        (DataFrame.mk ["account"] [[PValue.str "assets:bank"]]) []
        "account" true =
      .ok { DataFrame.mk ["account"] [[PValue.str "assets:bank"]] with
            rows := ([] : List (List PValue)) } :=
  filter_accounts_empty_patterns
    (DataFrame.mk ["account"] [[PValue.str "assets:bank"]]) "account" 0 rfl
    (by
      intro r hr
      simp only [List.mem_singleton] at hr
      subst hr
      exact ⟨"assets:bank", rfl⟩)

/-- C5: loading CSV text with `infer_schema=false` produces a table in
which every column is string-typed and every cell equals the raw CSV
cell text: the header record becomes the column names, every body cell
is the raw field text as a string, and no numeric or datetime coercion
is applied. -/
theorem from_csv_no_inference (t : String) (df : DataFrame)
    (h : HLDataFrame.from_csv t false = .ok df) :
    df.columns = (csvRawRecords t).headD [] ∧
    df.rows = ((csvRawRecords t).tail).map (fun r => r.map PValue.str) ∧
    ∀ r ∈ df.rows, ∀ v ∈ r, ∃ s, v = PValue.str s := by
  unfold HLDataFrame.from_csv read_csv at h
  revert h
  cases hrec : csvRawRecords t with
  | nil => intro h; cases h
  | cons cols rawRows =>
    intro h
    simp only [csvTable] at h
    by_cases hall : (rawRows.all fun r => r.length == cols.length) = true
    · rw [if_pos hall] at h
      simp only [Except.map, Bool.false_eq_true, if_false, Except.ok.injEq] at h
      subst h
      refine ⟨by simp, by simp, ?_⟩
      intro r hr v hv
      simp only [List.mem_map] at hr
      obtain ⟨rr, -, hrr⟩ := hr
      subst hrr
      simp only [List.mem_map] at hv
      obtain ⟨s, -, hs⟩ := hv
      exact ⟨s, hs.symm⟩
    · rw [if_neg hall] at h
      cases h

/-- Witness for C5 on the spec's example CSV text. -/
theorem from_csv_no_inference_witness :
    (DataFrame.mk ["account", "2024-01", "2024-02"]
        [[PValue.str "expenses:food", PValue.str "£100", PValue.str "£150"]]).columns =
      (csvRawRecords "account,2024-01,2024-02\nexpenses:food,£100,£150\n").headD [] ∧
    (DataFrame.mk ["account", "2024-01", "2024-02"]
        [[PValue.str "expenses:food", PValue.str "£100", PValue.str "£150"]]).rows =
      ((csvRawRecords "account,2024-01,2024-02\nexpenses:food,£100,£150\n").tail).map
        (fun r => r.map PValue.str) ∧
    ∀ r ∈ (DataFrame.mk ["account", "2024-01", "2024-02"]
        [[PValue.str "expenses:food", PValue.str "£100", PValue.str "£150"]]).rows,
      ∀ v ∈ r, ∃ s, v = PValue.str s :=
  from_csv_no_inference "account,2024-01,2024-02\nexpenses:food,£100,£150\n"
    (DataFrame.mk ["account", "2024-01", "2024-02"]
      [[PValue.str "expenses:food", PValue.str "£100", PValue.str "£150"]])
    rfl

theorem convCells_ok (sym : String) :
    ∀ (ts : List Bool) (vs vs' : List PValue),
      convCells sym ts vs = .ok vs' →
      vs'.length = vs.length ∧
      ∀ k, k < vs.length →
        (ts.getD k false = true →
          currencyCell sym (vs.getD k (.str "")) = .ok (vs'.getD k (.str ""))) ∧
        (ts.getD k false = false →
          vs'.getD k (.str "") = vs.getD k (.str "")) := by
  intro ts
  induction ts with
  | nil =>
    intro vs vs' h
    cases vs with
    | nil =>
      injection h with h
      subst h
      exact ⟨rfl, fun k hk => absurd hk (by simp)⟩
    | cons v vs =>
      injection h with h
      subst h
      refine ⟨rfl, fun k hk => ⟨fun habs => absurd habs (by simp), fun _ => rfl⟩⟩
  | cons t ts ih =>
    intro vs vs' h
    cases vs with
    | nil =>
      injection h with h
      subst h
      exact ⟨rfl, fun k hk => absurd hk (by simp)⟩
    | cons v vs =>
      unfold convCells at h
      revert h
      cases hv : (if t = true then currencyCell sym v else Except.ok v) with
      | error e => intro h; cases h
      | ok v' =>
        cases hrec : convCells sym ts vs with
        | error e => intro h; cases h
        | ok vs'' =>
          intro h
          injection h with h
          subst h
          obtain ⟨hlen, hk⟩ := ih vs vs'' hrec
          refine ⟨by simp [hlen], ?_⟩
          intro k hkk
          cases k with
          | zero =>
            constructor
            · intro ht
              have ht' : t = true := ht
              rw [ht', if_pos rfl] at hv
              simpa using hv
            · intro ht
              have ht' : t = false := ht
              rw [ht'] at hv
              simp only [Bool.false_eq_true, if_false] at hv
              injection hv with hv
              simp [hv]
          | succ k =>
            have hkk' : k < vs.length := by simpa using hkk
            exact ⟨fun ht => ((hk k hkk').1 (by simpa using ht)),
                   fun ht => ((hk k hkk').2 (by simpa using ht))⟩

theorem convRows_ok (sym : String) (target : List Bool) :
    ∀ (rs rs' : List (List PValue)),
      convRows sym target rs = .ok rs' →
      rs'.length = rs.length ∧
      ∀ i, i < rs.length →
        convCells sym target (rs.getD i []) = .ok (rs'.getD i []) := by
  intro rs
  induction rs with
  | nil =>
    intro rs' h
    injection h with h
    subst h
    exact ⟨rfl, fun i hi => absurd hi (by simp)⟩
  | cons r rs ih =>
    intro rs' h
    unfold convRows at h
    revert h
    cases hr : convCells sym target r with
    | error e => intro h; cases h
    | ok r' =>
      cases hrec : convRows sym target rs with
      | error e => intro h; cases h
      | ok rest =>
        intro h
        injection h with h
        subst h
        obtain ⟨hlen, hi⟩ := ih rest hrec
        refine ⟨by simp [hlen], ?_⟩
        intro i hii
        cases i with
        | zero => simpa using hr
        | succ i => exact hi i (by simpa using hii)

theorem getD_map_lt {α β : Type} (f : α → β) (l : List α) (k : Nat) (d : β)
    (d' : α) (hk : k < l.length) : (l.map f).getD k d = f (l.getD k d') := by
  induction l generalizing k with
  | nil => exact absurd hk (by simp)
  | cons a l ih =>
    cases k with
    | zero => rfl
    | succ k => simpa using ih k (by simpa using hk)

theorem currency_to_number_ok (df : DataFrame) (sym : String)
    (preserve_cols change_cols : Option (List String)) (df' : DataFrame)
    (h : HLDataFrame.currency_to_number df sym preserve_cols change_cols =
      .ok df') :
    df'.columns = df.columns ∧
    df'.rows.length = df.rows.length ∧
    ∀ i, i < df.rows.length →
      convCells sym (targetMask df preserve_cols change_cols)
        (df.rows.getD i []) = .ok (df'.rows.getD i []) := by
  unfold HLDataFrame.currency_to_number at h
  revert h
  by_cases hchk : ((change_cols.getD df.columns).all (fun c =>
      (preserve_cols.getD []).contains c || df.columns.contains c)) = true
  · rw [if_pos hchk]
    cases hcv : convRows sym (targetMask df preserve_cols change_cols)
        df.rows with
    | error e => intro h; cases h
    | ok rows =>
      intro h
      injection h with h
      subst h
      obtain ⟨hlen, hi⟩ := convRows_ok sym _ df.rows rows hcv
      exact ⟨rfl, hlen, hi⟩
  · rw [if_neg hchk]
    intro h
    cases h

/-- C3 (amended): for every targeted column (in the change set, not in
the preserve set), `currency_to_number` removes only the FIRST
occurrence of the currency symbol from each string value and parses the
stripped string as a Float64; a converted cell is the float of the
once-stripped text, so a value containing the symbol more than once
fails the cast instead of converting to the all-occurrences-removed
number. Non-targeted cells are unchanged. -/
theorem currency_to_number_strips_first_occurrence (df : DataFrame)
    (sym : String) (preserve_cols change_cols : Option (List String))
    (df' : DataFrame)
    (h : HLDataFrame.currency_to_number df sym preserve_cols change_cols =
      .ok df') :
    df'.columns = df.columns ∧ df'.rows.length = df.rows.length ∧
    ∀ i k, i < df.rows.length → k < (df.rows.getD i []).length →
      ((targetMask df preserve_cols change_cols).getD k false = true →
        ∀ s, (df.rows.getD i []).getD k (.str "") = PValue.str s →
          ∃ q, parseFloatQ (String.mk (removeFirstOcc sym.data s.data)) =
              some q ∧
            (df'.rows.getD i []).getD k (.str "") = PValue.float q) ∧
      ((targetMask df preserve_cols change_cols).getD k false = false →
        (df'.rows.getD i []).getD k (.str "") =
          (df.rows.getD i []).getD k (.str "")) := by
  obtain ⟨hc, hlen, hi⟩ :=
    currency_to_number_ok df sym preserve_cols change_cols df' h
  refine ⟨hc, hlen, ?_⟩
  intro i k hik hkk
  obtain ⟨hlen2, hk⟩ := convCells_ok sym _ _ _ (hi i hik)
  refine ⟨?_, fun ht => (hk k hkk).2 ht⟩
  intro ht s hcell
  have hcur := (hk k hkk).1 ht
  rw [hcell] at hcur
  simp only [currencyCell] at hcur
  revert hcur
  cases hq : parseFloatQ (String.mk (removeFirstOcc sym.data s.data)) with
  | none => intro hcur; cases hcur
  | some q =>
    intro hcur
    injection hcur with hcur
    exact ⟨q, rfl, hcur.symm⟩

/-- Witness for C3 (amended) on a one-column table whose value `£3`
converts to the float `3`. -/
theorem currency_to_number_strips_first_occurrence_witness :
    (DataFrame.mk ["amount"] [[PValue.float (3 : ℚ)]]).columns =
      (DataFrame.mk ["amount"] [[PValue.str "£3"]]).columns ∧
    (DataFrame.mk ["amount"] [[PValue.float (3 : ℚ)]]).rows.length =
      (DataFrame.mk ["amount"] [[PValue.str "£3"]]).rows.length :=
  ⟨(currency_to_number_strips_first_occurrence
      (DataFrame.mk ["amount"] [[PValue.str "£3"]]) "£" none none
      (DataFrame.mk ["amount"] [[PValue.float (3 : ℚ)]]) rfl).1,
   (currency_to_number_strips_first_occurrence
      (DataFrame.mk ["amount"] [[PValue.str "£3"]]) "£" none none
      (DataFrame.mk ["amount"] [[PValue.float (3 : ℚ)]]) rfl).2.1⟩

/-- C3 counterexample: on the one-column table holding `££100` the
claim predicts the float obtained after removing every occurrence of
`£` (i.e. `100`), but the code strips only the first occurrence and the
strict cast of the remaining `£100` fails — the call returns an error,
not a converted table. -/
theorem currency_to_number_double_symbol_counterexample :
    HLDataFrame.currency_to_number
        (DataFrame.mk ["amount"] [[PValue.str "££100"]]) "£" none none =
      .error (.parseFailure "£100") ∧
    ∀ df', HLDataFrame.currency_to_number
        (DataFrame.mk ["amount"] [[PValue.str "££100"]]) "£" none none ≠
      .ok df' := by
  have h1 : HLDataFrame.currency_to_number
      (DataFrame.mk ["amount"] [[PValue.str "££100"]]) "£" none none =
      .error (.parseFailure "£100") := rfl
  refine ⟨h1, ?_⟩
  intro df' h
  rw [h1] at h
  cases h

/-- C7: `currency_to_number` leaves every column in the preserve set
unchanged, even when that column is also in the change set (the
comprehension filters `col not in preserve_cols` after iterating
`change_cols`, so preserve always wins); and on the table with columns
`date` (`"2024-01"`) and `amount` (`"£100.50"`), the call with
`preserve={"date"}` leaves `date` untouched and converts `amount` to
the float `100.50`. -/
theorem currency_to_number_preserve_wins :
    (∀ (df : DataFrame) (sym : String)
        (preserve_cols change_cols : Option (List String)) (df' : DataFrame),
      HLDataFrame.currency_to_number df sym preserve_cols change_cols =
        .ok df' →
      df'.columns = df.columns ∧ df'.rows.length = df.rows.length ∧
      ∀ i k, i < df.rows.length → k < df.columns.length →
        k < (df.rows.getD i []).length →
        (preserve_cols.getD []).contains (df.columns.getD k "") = true →
        (df'.rows.getD i []).getD k (.str "") =
          (df.rows.getD i []).getD k (.str "")) ∧
    HLDataFrame.currency_to_number
        (DataFrame.mk ["date", "amount"]
          [[PValue.str "2024-01", PValue.str "£100.50"]])
        "£" (some ["date"]) none =
      .ok (DataFrame.mk ["date", "amount"]
        [[PValue.str "2024-01", PValue.float (mkRat 201 2)]]) := by
  constructor
  · intro df sym preserve_cols change_cols df' h
    obtain ⟨hc, hlen, hi⟩ :=
      currency_to_number_ok df sym preserve_cols change_cols df' h
    refine ⟨hc, hlen, ?_⟩
    intro i k hik hkc hkk hpres
    obtain ⟨hlen2, hk⟩ := convCells_ok sym _ _ _ (hi i hik)
    refine (hk k hkk).2 ?_
    unfold targetMask
    rw [getD_map_lt _ _ _ _ "" hkc, hpres]
    simp
  · rfl

/-- Witness for C7: the preserved `date` cell of the example table is
returned unchanged. -/
theorem currency_to_number_preserve_wins_witness :
    ((DataFrame.mk ["date", "amount"]
        [[PValue.str "2024-01", PValue.float (mkRat 201 2)]]).rows.getD 0
          []).getD 0 (PValue.str "") =
      ((DataFrame.mk ["date", "amount"]
        [[PValue.str "2024-01", PValue.str "£100.50"]]).rows.getD 0
          []).getD 0 (PValue.str "") :=
  (currency_to_number_preserve_wins.1
    (DataFrame.mk ["date", "amount"]
      [[PValue.str "2024-01", PValue.str "£100.50"]])
    "£" (some ["date"]) none
    (DataFrame.mk ["date", "amount"]
      [[PValue.str "2024-01", PValue.float (mkRat 201 2)]])
    rfl).2.2 0 0 (by decide) (by decide) (by decide) rfl

/-- Specification-side view of the datetime conversion on one row: the
date cell (position `j`) must be a string conforming to the format, and
the row is rebuilt with only that cell replaced by the parsed datetime;
`none` marks a non-conforming row. -/
def parsedRow (date_format : String) (j : Nat) (r : List PValue) :
    Option (List PValue) :=
  match r.getD j (.str "") with
  | .str s =>
    (parseDT date_format s).map (fun p => r.set j (.datetime p.1 p.2.1 p.2.2))
  | _ => none

theorem dtCell_parsedRow (fmt : String) (j : Nat) (r : List PValue) :
    (∀ v, dtCell fmt (r.getD j (.str "")) = .ok v →
      parsedRow fmt j r = some (r.set j v)) ∧
    (∀ e, dtCell fmt (r.getD j (.str "")) = .error e →
      parsedRow fmt j r = none ∧ ∃ s, e = .parseFailure s) := by
  unfold parsedRow
  cases hcell : r.getD j (.str "") with
  | str s =>
    constructor
    · intro v hv
      unfold dtCell at hv
      dsimp only at hv
      cases hp : parseDT fmt s with
      | none =>
        rw [hp] at hv
        dsimp only at hv
        cases hv
      | some p =>
        obtain ⟨y, m, d⟩ := p
        rw [hp] at hv
        dsimp only at hv
        injection hv with hv
        dsimp only
        rw [hp]
        dsimp only [Option.map]
        rw [hv]
    · intro e he
      unfold dtCell at he
      dsimp only at he
      cases hp : parseDT fmt s with
      | none =>
        rw [hp] at he
        dsimp only at he
        injection he with he
        dsimp only
        rw [hp]
        exact ⟨rfl, s, he.symm⟩
      | some p =>
        obtain ⟨y, m, d⟩ := p
        rw [hp] at he
        dsimp only at he
        cases he
  | float q =>
    constructor
    · intro v hv
      exact absurd hv (by simp [dtCell])
    · intro e he
      have h1 : dtCell fmt (PValue.float q) =
          .error (.parseFailure "to_datetime on non-string column") := rfl
      rw [h1] at he
      injection he with he
      exact ⟨rfl, "to_datetime on non-string column", he.symm⟩
  | datetime y m d =>
    constructor
    · intro v hv
      exact absurd hv (by simp [dtCell])
    · intro e he
      have h1 : dtCell fmt (PValue.datetime y m d) =
          .error (.parseFailure "to_datetime on non-string column") := rfl
      rw [h1] at he
      injection he with he
      exact ⟨rfl, "to_datetime on non-string column", he.symm⟩

theorem dtRows_ok_pointwise (fmt : String) (j : Nat) :
    ∀ rs out, dtRows fmt j rs = .ok out →
      out.length = rs.length ∧
      ∀ i, i < rs.length →
        parsedRow fmt j (rs.getD i []) = some (out.getD i []) := by
  intro rs
  induction rs with
  | nil =>
    intro out h
    injection h with h
    subst h
    exact ⟨rfl, fun i hi => absurd hi (by simp)⟩
  | cons r rs ih =>
    intro out h
    unfold dtRows at h
    revert h
    cases hv : dtCell fmt (r.getD j (.str "")) with
    | error e => intro h; cases h
    | ok v =>
      cases hrec : dtRows fmt j rs with
      | error e => intro h; cases h
      | ok rest =>
        intro h
        injection h with h
        subst h
        obtain ⟨hlen, hi⟩ := ih rest hrec
        refine ⟨by simp [hlen], ?_⟩
        intro i hii
        cases i with
        | zero => simpa using (dtCell_parsedRow fmt j r).1 v hv
        | succ i => exact hi i (by simpa using hii)

theorem dtRows_all_ok (fmt : String) (j : Nat) :
    ∀ rs, (∀ r ∈ rs, parsedRow fmt j r ≠ none) →
      ∃ out, dtRows fmt j rs = .ok out := by
  intro rs
  induction rs with
  | nil => intro _; exact ⟨[], rfl⟩
  | cons r rs ih =>
    intro hall
    obtain ⟨out, hout⟩ := ih (fun r' hr' => hall r' (by simp [hr']))
    cases hv : dtCell fmt (r.getD j (.str "")) with
    | error e =>
      exact absurd ((dtCell_parsedRow fmt j r).2 e hv).1 (hall r (by simp))
    | ok v =>
      refine ⟨r.set j v :: out, ?_⟩
      unfold dtRows
      rw [hv, hout]

theorem dtRows_error_shape (fmt : String) (j : Nat) :
    ∀ rs e, dtRows fmt j rs = .error e →
      (∃ s, e = .parseFailure s) ∧
      ∃ r ∈ rs, parsedRow fmt j r = none := by
  intro rs
  induction rs with
  | nil => intro e h; cases h
  | cons r rs ih =>
    intro e h
    unfold dtRows at h
    revert h
    cases hv : dtCell fmt (r.getD j (.str "")) with
    | error e1 =>
      intro h
      injection h with h
      subst h
      obtain ⟨hnone, hshape⟩ := (dtCell_parsedRow fmt j r).2 e1 hv
      exact ⟨hshape, r, by simp, hnone⟩
    | ok v =>
      cases hrec : dtRows fmt j rs with
      | error e2 =>
        intro h
        injection h with h
        subst h
        obtain ⟨hshape, r', hr', hnone⟩ := ih e2 hrec
        exact ⟨hshape, r', by simp [hr'], hnone⟩
      | ok rest => intro h; cases h

/-- C8: `col_to_datetime` reparses the named string column with the
date-format pattern into datetime values: on success the table keeps
its columns and all of its rows, each row rebuilt with only the date
cell replaced by its parsed datetime (no silent drop, no sentinel); it
fails exactly when some value does not conform, and the failure is a
parse error. -/
theorem col_to_datetime_strict (df : DataFrame)
    (datecol_name date_format : String) (j : Nat)
    (hj : df.columns.findIdx? (· == datecol_name) = some j) :
    (∀ df', HLDataFrame.col_to_datetime df datecol_name date_format =
        .ok df' →
      df'.columns = df.columns ∧ df'.rows.length = df.rows.length ∧
      ∀ i, i < df.rows.length →
        parsedRow date_format j (df.rows.getD i []) =
          some (df'.rows.getD i [])) ∧
    (∀ e, HLDataFrame.col_to_datetime df datecol_name date_format =
        .error e →
      (∃ s, e = .parseFailure s) ∧
      ∃ r ∈ df.rows, parsedRow date_format j r = none) ∧
    ((∀ r ∈ df.rows, parsedRow date_format j r ≠ none) →
      ∃ df', HLDataFrame.col_to_datetime df datecol_name date_format =
        .ok df') := by
  refine ⟨?_, ?_, ?_⟩
  · intro df' h
    unfold HLDataFrame.col_to_datetime at h
    rw [hj] at h
    dsimp only at h
    revert h
    cases hr : dtRows date_format j df.rows with
    | error e => intro h; cases h
    | ok rows =>
      intro h
      injection h with h
      subst h
      obtain ⟨hlen, hi⟩ := dtRows_ok_pointwise date_format j df.rows rows hr
      exact ⟨rfl, hlen, hi⟩
  · intro e h
    unfold HLDataFrame.col_to_datetime at h
    rw [hj] at h
    dsimp only at h
    revert h
    cases hr : dtRows date_format j df.rows with
    | error e1 =>
      intro h
      injection h with h
      subst h
      exact dtRows_error_shape date_format j df.rows e1 hr
    | ok rows => intro h; cases h
  · intro hall
    obtain ⟨out, hout⟩ := dtRows_all_ok date_format j df.rows hall
    refine ⟨{ df with rows := out }, ?_⟩
    unfold HLDataFrame.col_to_datetime
    rw [hj]
    dsimp only
    rw [hout]

/-- Witness for C8: a two-row date column parsed with the default
`%Y-%m` format. -/
theorem col_to_datetime_strict_witness :
    (DataFrame.mk ["date", "v"]
        [[PValue.datetime 2024 1 1, PValue.str "x"],
         [PValue.datetime 2024 2 1, PValue.str "y"]]).columns =
      (DataFrame.mk ["date", "v"]
        [[PValue.str "2024-01", PValue.str "x"],
         [PValue.str "2024-02", PValue.str "y"]]).columns ∧
    (DataFrame.mk ["date", "v"]
        [[PValue.datetime 2024 1 1, PValue.str "x"],
         [PValue.datetime 2024 2 1, PValue.str "y"]]).rows.length =
      (DataFrame.mk ["date", "v"]
        [[PValue.str "2024-01", PValue.str "x"],
         [PValue.str "2024-02", PValue.str "y"]]).rows.length ∧
    ∀ i, i < (DataFrame.mk ["date", "v"]
        [[PValue.str "2024-01", PValue.str "x"],
         [PValue.str "2024-02", PValue.str "y"]]).rows.length →
      parsedRow "%Y-%m" 0
          ((DataFrame.mk ["date", "v"]
            [[PValue.str "2024-01", PValue.str "x"],
             [PValue.str "2024-02", PValue.str "y"]]).rows.getD i []) =
        some ((DataFrame.mk ["date", "v"]
          [[PValue.datetime 2024 1 1, PValue.str "x"],
           [PValue.datetime 2024 2 1, PValue.str "y"]]).rows.getD i []) :=
  (col_to_datetime_strict
    (DataFrame.mk ["date", "v"]
      [[PValue.str "2024-01", PValue.str "x"],
       [PValue.str "2024-02", PValue.str "y"]])
    "date" "%Y-%m" 0 rfl).1
    (DataFrame.mk ["date", "v"]
      [[PValue.datetime 2024 1 1, PValue.str "x"],
       [PValue.datetime 2024 2 1, PValue.str "y"]])
    rfl

theorem ite_true_cond {α : Type} (a b : α) : (if true = true then a else b) = a :=
  if_pos rfl

theorem ite_false_cond {α : Type} (a b : α) :
    (if false = true then a else b) = b := by
  simp

theorem findIdxP_none (a : String) : ∀ (l : List String) (start : Nat),
    ¬ a ∈ l → List.findIdx? (fun x => x == a) l start = none := by
  intro l
  induction l with
  | nil => intro start _; rfl
  | cons b bs ih =>
    intro start h
    rw [List.findIdx?_cons]
    have hba : (b == a) = false := by
      apply Bool.eq_false_iff.mpr
      intro hbe
      exact h (by rw [beq_iff_eq] at hbe; simp [hbe])
    rw [hba]
    simp only [Bool.false_eq_true, if_false]
    exact ih (start + 1) (fun hm => h (by simp [hm]))

theorem getColumn_ok_length (df : DataFrame) (c : String) (vals : List PValue)
    (h : df.getColumn c = .ok vals) : vals.length = df.rows.length := by
  unfold DataFrame.getColumn at h
  revert h
  cases hj : df.columns.findIdx? (· == c) with
  | none => intro h; cases h
  | some j =>
    intro h
    injection h with h
    subst h
    simp

theorem valuesToNames_length :
    ∀ (vals : List PValue) (names : List String),
      valuesToNames vals = .ok names → names.length = vals.length := by
  intro vals
  induction vals with
  | nil =>
    intro names h
    injection h with h
    subst h
    rfl
  | cons v vs ih =>
    intro names h
    cases v with
    | str s =>
      unfold valuesToNames at h
      revert h
      cases hr : valuesToNames vs with
      | error e => intro h; cases h
      | ok ns =>
        intro h
        dsimp only [Except.map] at h
        injection h with h
        subst h
        simp [ih ns hr]
    | float q => exact absurd h (by simp [valuesToNames])
    | datetime y m d => exact absurd h (by simp [valuesToNames])

theorem transposePl_true_columns_length (d : DataFrame) :
    (d.transposePl true).columns.length = 1 + d.rows.length := by
  unfold DataFrame.transposePl
  simp
  omega

theorem dropCol_rows_length (d : DataFrame) (c : String) :
    (d.dropCol c).rows.length = d.rows.length := by
  unfold DataFrame.dropCol
  cases hj : d.columns.findIdx? (· == c) <;> simp

theorem setColumns_transpose_ok (d : DataFrame) (nid : String)
    (names : List String) (hlen : names.length = d.rows.length) :
    (d.transposePl true).setColumns (nid :: names) =
      .ok { columns := nid :: names, rows := (d.transposePl true).rows } := by
  have hc : (nid :: names).length = (d.transposePl true).columns.length := by
    rw [transposePl_true_columns_length d]
    simp [hlen]
    omega
  unfold DataFrame.setColumns
  rw [if_pos hc]

/-- C2 (amended): with `auto_name=true` and no explicit identifier,
transpose detects the identifier column (`account`, also satisfied by a
normalized `Account`, else `date`, else it falls back to the generic
transpose), drops it, transposes the remaining columns generically,
names the resulting first column `date` when the identifier was the
account column (`account` when it was `date`), and sets the remaining
headers to the identifier values in row order; on the table loaded from
`account,2024-01,2024-02 / expenses:food,£100,£150` this yields headers
`date, expenses:food` and rows `(2024-01,£100)`, `(2024-02,£150)`. The
amendment: a table containing BOTH an `account` and an `Account` column
is excluded — there the internal `Account`→`account` rename collides
and the operation fails instead (see the counterexample). -/
theorem transpose_auto_name_spec :
    (∀ (df : DataFrame) (vals : List PValue) (names : List String),
      df.columns.contains "account" = true →
      df.columns.contains "Account" = false →
      df.getColumn "account" = .ok vals →
      valuesToNames vals = .ok names →
      HLDataFrame.transpose df none true true =
        .ok { columns := "date" :: names,
              rows := ((df.dropCol "account").transposePl true).rows }) ∧
    (∀ (df df1 : DataFrame) (vals : List PValue) (names : List String),
      df.columns.contains "account" = false →
      df.columns.contains "Account" = true →
      df.renameCol "Account" "account" = .ok df1 →
      df1.getColumn "account" = .ok vals →
      valuesToNames vals = .ok names →
      HLDataFrame.transpose df none true true =
        .ok { columns := "date" :: names,
              rows := ((df1.dropCol "account").transposePl true).rows }) ∧
    (∀ (df : DataFrame) (vals : List PValue) (names : List String),
      df.columns.contains "account" = false →
      df.columns.contains "Account" = false →
      df.columns.contains "date" = true →
      df.getColumn "date" = .ok vals →
      valuesToNames vals = .ok names →
      HLDataFrame.transpose df none true true =
        .ok { columns := "account" :: names,
              rows := ((df.dropCol "date").transposePl true).rows }) ∧
    (∀ (df : DataFrame) (include_header : Bool),
      df.columns.contains "account" = false →
      df.columns.contains "Account" = false →
      df.columns.contains "date" = false →
      HLDataFrame.transpose df none include_header true =
        .ok (df.transposePl include_header)) ∧
    (∃ df0, HLDataFrame.from_csv
        "account,2024-01,2024-02\nexpenses:food,£100,£150\n" false =
        .ok df0 ∧
      HLDataFrame.transpose df0 none true true =
        .ok (DataFrame.mk ["date", "expenses:food"]
          [[PValue.str "2024-01", PValue.str "£100"],
           [PValue.str "2024-02", PValue.str "£150"]])) := by
  refine ⟨?_, ?_, ?_, ?_, ?_⟩
  · intro df vals names h1 h2 hcol hnames
    have hv := getColumn_ok_length df "account" vals hcol
    have hn := valuesToNames_length vals names hnames
    unfold HLDataFrame.transpose
    simp only [h1, h2, Bool.true_or, Bool.not_true, ite_true_cond,
      ite_false_cond, if_true, if_false]
    try dsimp only
    rw [hcol]
    try dsimp only
    rw [hnames]
    try dsimp only
    rw [setColumns_transpose_ok (df.dropCol "account") "date" names
      (by rw [dropCol_rows_length]; exact hn.trans hv)]
  · intro df df1 vals names h1 h2 hN hcol hnames
    have hv := getColumn_ok_length df1 "account" vals hcol
    have hn := valuesToNames_length vals names hnames
    unfold HLDataFrame.transpose
    simp only [h1, h2, Bool.false_or, Bool.not_true, ite_true_cond,
      ite_false_cond, if_true, if_false]
    try dsimp only
    rw [hN]
    try dsimp only
    rw [hcol]
    try dsimp only
    rw [hnames]
    try dsimp only
    rw [setColumns_transpose_ok (df1.dropCol "account") "date" names
      (by rw [dropCol_rows_length]; exact hn.trans hv)]
  · intro df vals names h1 h2 h3 hcol hnames
    have hv := getColumn_ok_length df "date" vals hcol
    have hn := valuesToNames_length vals names hnames
    unfold HLDataFrame.transpose
    simp only [h1, h2, h3, Bool.false_or, Bool.not_true, ite_true_cond,
      ite_false_cond, if_true, if_false]
    try dsimp only
    rw [hcol]
    try dsimp only
    rw [hnames]
    try dsimp only
    rw [if_neg (by decide : ¬("date" = "account"))]
    rw [setColumns_transpose_ok (df.dropCol "date") "account" names
      (by rw [dropCol_rows_length]; exact hn.trans hv)]
  · intro df include_header h1 h2 h3
    unfold HLDataFrame.transpose
    simp only [h1, h2, h3, Bool.false_or, Bool.not_true, ite_true_cond,
      ite_false_cond, if_true, if_false]
  · exact ⟨DataFrame.mk ["account", "2024-01", "2024-02"]
      [[PValue.str "expenses:food", PValue.str "£100", PValue.str "£150"]],
      rfl, rfl⟩

/-- Witness for C2 (amended) on the table loaded from the spec's
example CSV. -/
theorem transpose_auto_name_spec_witness :
    HLDataFrame.transpose
        (DataFrame.mk ["account", "2024-01", "2024-02"]
          [[PValue.str "expenses:food", PValue.str "£100", PValue.str "£150"]])
        none true true =
      .ok { columns := "date" :: ["expenses:food"],
            rows := (((DataFrame.mk ["account", "2024-01", "2024-02"]
              [[PValue.str "expenses:food", PValue.str "£100",
                PValue.str "£150"]]).dropCol
                  "account").transposePl true).rows } :=
  transpose_auto_name_spec.1
    (DataFrame.mk ["account", "2024-01", "2024-02"]
      [[PValue.str "expenses:food", PValue.str "£100", PValue.str "£150"]])
    [PValue.str "expenses:food"] ["expenses:food"] rfl rfl rfl rfl

/-- C2 counterexample: on a table that has BOTH an `account` and an
`Account` column (all strings), detection finds an identifier, but the
claimed drop/transpose/relabel output is not produced — the internal
`Account`→`account` rename collides with the existing `account` column
and the call fails. -/
theorem transpose_both_account_columns_counterexample :
    HLDataFrame.transpose
        (DataFrame.mk ["account", "Account"]
          [[PValue.str "a", PValue.str "b"]]) none true true =
      .error (.duplicateColumn "account") ∧
    ∀ df', HLDataFrame.transpose
        (DataFrame.mk ["account", "Account"]
          [[PValue.str "a", PValue.str "b"]]) none true true ≠ .ok df' := by
  have h1 : HLDataFrame.transpose
      (DataFrame.mk ["account", "Account"]
        [[PValue.str "a", PValue.str "b"]]) none true true =
      .error (.duplicateColumn "account") := rfl
  refine ⟨h1, ?_⟩
  intro df' h
  rw [h1] at h
  cases h

/-- C9 (amended): calling transpose with `auto_name=true` and the
explicit `id_col="Account"` on a table that contains `Account` but no
`account` column fails with `ColumnNotFoundError` for `Account`: the
column is renamed to `account` before the identifier values are read.
(When an `account` column is also present the rename itself fails with
a duplicate-column error instead — see the counterexample.) -/
theorem transpose_explicit_Account_not_found (df : DataFrame)
    (h1 : df.columns.contains "Account" = true)
    (h2 : df.columns.contains "account" = false) (include_header : Bool) :
    HLDataFrame.transpose df (some "Account") include_header true =
      .error (.columnNotFound "Account") := by
  have h2' : ¬ "account" ∈ df.columns := by simpa using h2
  have hnm : ¬ "Account" ∈ df.columns.map
      (fun c => if c = "Account" then "account" else c) := by
    intro hmem
    rw [List.mem_map] at hmem
    obtain ⟨c, hc, hfc⟩ := hmem
    by_cases hce : c = "Account"
    · rw [if_pos hce] at hfc
      exact absurd hfc (by decide)
    · rw [if_neg hce] at hfc
      exact hce hfc
  unfold HLDataFrame.transpose
  simp only [h1, Bool.not_true, ite_true_cond, ite_false_cond, if_true,
    if_false]
  try dsimp only
  have hm1 : "Account" ∈ df.columns := by simpa using h1
  unfold DataFrame.renameCol
  rw [if_neg (by simp [hm1])]
  rw [if_neg (by simp [h2'])]
  try dsimp only
  unfold DataFrame.getColumn
  rw [findIdxP_none "Account" _ 0 hnm]

/-- Witness for C9 (amended): a table with an `Account` column and no
`account` column. -/
theorem transpose_explicit_Account_not_found_witness :
    HLDataFrame.transpose
        (DataFrame.mk ["Account", "x"] [[PValue.str "a", PValue.str "1"]])
        (some "Account") true true = .error (.columnNotFound "Account") :=
  transpose_explicit_Account_not_found
    (DataFrame.mk ["Account", "x"] [[PValue.str "a", PValue.str "1"]])
    rfl rfl true

/-- C9 counterexample: when the table also contains an `account`
column, `transpose(id_col="Account", auto_name=True)` fails with a
duplicate-column error from the rename, not with a column-not-found
error — so the claim's error description does not hold for every table
containing `Account`. -/
theorem transpose_explicit_Account_duplicate_counterexample :
    HLDataFrame.transpose
        (DataFrame.mk ["account", "Account"]
          [[PValue.str "a", PValue.str "b"]])
        (some "Account") true true = .error (.duplicateColumn "account") ∧
    ∀ s, HLDataFrame.transpose
        (DataFrame.mk ["account", "Account"]
          [[PValue.str "a", PValue.str "b"]])
        (some "Account") true true ≠ .error (.columnNotFound s) := by
  have h1 : HLDataFrame.transpose
      (DataFrame.mk ["account", "Account"]
        [[PValue.str "a", PValue.str "b"]])
      (some "Account") true true = .error (.duplicateColumn "account") := rfl
  refine ⟨h1, ?_⟩
  intro s h
  rw [h1] at h
  injection h with h
  exact PError.noConfusion h
